import Mathlib

/-!
Shallow embedding of the kzrjson JSON library (src/kzrjson.c).

The repository file src/kzrjson.c contains two near-duplicate revisions of
the library.  The first revision (lines 1-1105, the one every claim cites
first) is embedded here under the source names; the second revision's
`kzrjson_array_add_element` (lines 2108-2119), which additionally rejects
bare Member elements, is embedded under the name `v2_kzrjson_array_add_element`.

Modelling conventions:
- C strings become `List Char`; the lexer cursor `lexer.pos` becomes a `Nat`
  index into the fixed input list, and reading `*lexer.pos` becomes
  `charAt t pos`, which yields the NUL character past the end of the list
  (the C text is NUL-terminated).
- The process-wide mutable state (current_token, lexer position and the
  exception cell `g_exception`) is threaded explicitly through the record
  `St`.  `throw_exception e` becomes writing `e` into the `exc` field and
  `kzrjson_catch_exception()` becomes testing `exc` against `success`.
- Heap allocation always succeeds in the model, so the
  `failed_to_allocate_memory` paths of the first revision are dead code here
  (the second revision's `add_element` reaches its allocation-error label
  even on success, and that is kept).
- The mutually recursive parser functions take an explicit fuel argument
  (structural recursion on `Nat`); the C code terminates because every loop
  iteration advances the cursor, and `kzrjson_parse` passes fuel that is
  ample for every input considered in the theorems below.
- `strtoll` / `strtoull` / `strtod` are the C library conversions the source
  calls in `make_number`; they are modelled by their C semantics (skip
  spaces, optional sign, digits, and for `strtod` an optional fraction and
  an optional well-formed exponent; conversion fails exactly when no
  characters are consumed).  The numeric value read by `strtod` is kept
  exactly, as a decimal mantissa/exponent pair of integers; IEEE rounding
  to double is not modelled.
-/

namespace Kzrjson

/-- Exception names, as in `kzrjson_exception_name` (kzrjson.h). -/
inductive ExcName where
  | success
  | tokenize
  | parse
  | alloc
  | notNumber
  | illegalType
  | indexOutOfRange
  | keyNotFound
  deriving DecidableEq, Repr

/-- Number classifications, as in `kzrjson_number_type`
(`kzrjson_int`, `kzrjson_uint`, `kzrjson_double`, `kzrjson_exp`). -/
inductive NumberType where
  | int
  | uint
  | double
  | exp
  deriving DecidableEq, Repr

/-- The numeric field of a number node: exactly one of the union members
`number_int` / `number_uint` / `number_double` is set, according to the
classification.  The `double` member is kept exactly as the decimal value
read by `strtod`, a mantissa times a power of ten (IEEE rounding is not
modelled). -/
inductive NumVal where
  | i (v : Int)
  | u (v : Nat)
  | d (mantissa : Int) (exp10 : Int)
  deriving DecidableEq, Repr

/-- A JSON value tree node (`struct kzrjson_t`).  The C struct carries all
fields in every node; only the fields meaningful for the variant are kept.
A member's value is an `Option` because `make_member` creates the node with
a NULL value and `add_value` fills it in only when the parsed value is
non-NULL. -/
inductive Json where
  | obj (elements : List Json)
  | arr (elements : List Json)
  | str (s : List Char)
  | num (s : List Char) (ntype : NumberType) (val : NumVal)
  | boolean (b : Bool)
  | null
  | member (key : List Char) (value : Option Json)
  deriving Repr

/-- The NUL terminator of a C string. -/
def nul : Char := Char.ofNat 0

def begin_array : Char := '['

/-- The left curly bracket (written via its code point). -/
def begin_object : Char := Char.ofNat 123

def end_array : Char := ']'

/-- The right curly bracket (written via its code point). -/
def end_object : Char := Char.ofNat 125

def name_separator : Char := ':'

def value_separator : Char := ','

def white_spaces : List Char := [' ', Char.ofNat 9, Char.ofNat 10, Char.ofNat 13]

def literal_false : List Char := ['f', 'a', 'l', 's', 'e']

def literal_null : List Char := ['n', 'u', 'l', 'l']

def literal_true : List Char := ['t', 'r', 'u', 'e']

def decimal_point : Char := '.'

def digit0_9 : List Char := ['0', '1', '2', '3', '4', '5', '6', '7', '8', '9']

def minus : Char := '-'

def plus : Char := '+'

def escape : Char := '\\'

def quotation_mark : Char := '"'

/-- The permitted escape-target characters of `set_token_string`
(src/kzrjson.c line 220). -/
def escape_targets : List Char := ['"', '\\', '/', 'b', 'f', 'n', 'r', 't', 'u']

/-- Reading `*(text + pos)`: past the end of the list this is the NUL
terminator. -/
def charAt (t : List Char) (pos : Nat) : Char := t.getD pos nul

/-- Token kinds (`kzrjson_token_type`).  Only the kinds the lexer actually
produces are kept; a `str` token records the index of its first character
and its length, as `current_token.begin` / `current_token.length` do. -/
inductive Token where
  | tokError
  | beginArray
  | beginObject
  | endArray
  | endObject
  | nameSeparator
  | valueSeparator
  | litFalse
  | litNull
  | litTrue
  | decimalPoint
  | digit
  | tokE
  | tokMinus
  | tokPlus
  | tokEscape
  | str (b : Nat) (length : Nat)
  | eot
  deriving DecidableEq, Repr

/-- The threaded global state: lexer cursor, `current_token`, and the
exception cell `g_exception.name`. -/
structure St where
  pos : Nat
  tok : Token
  exc : ExcName
  deriving DecidableEq, Repr

/-- Number of leading whitespace characters of a suffix of the text; this is
how far the `consume_if_contained(white_spaces)` loop of `get_token`
advances the cursor. -/
def ws_count : List Char → Nat
  | [] => 0
  | c :: rest => if c ∈ white_spaces then ws_count rest + 1 else 0

/-- The scanning loop of `set_token_string` (src/kzrjson.c lines 212-238),
run on the suffix of the text that starts just after the opening quotation
mark.  Returns `(ok, length, consumed)`: whether a closing quotation mark
was found, the accumulated token length (an escape pair counts 2), and how
many characters the cursor advanced (on success this includes the closing
quotation mark; on failure the cursor stops at the offending character,
matching the C loop). -/
def set_token_string : List Char → Nat → Bool × Nat × Nat
  | [], length => (false, length, 0)
  | c :: rest, length =>
    if c = quotation_mark then (true, length, 1)
    else if c = nul then (false, length, 0)
    else if c = escape then
      match rest with
      | [] => (false, length, 1)
      | c2 :: rest2 =>
        if c2 = nul then (false, length, 1)
        else if c2 ∈ escape_targets then
          match set_token_string rest2 (length + 2) with
          | (ok, l, n) => (ok, l, n + 2)
        else (false, length, 1)
    else
      match set_token_string rest (length + 1) with
      | (ok, l, n) => (ok, l, n + 1)

/-- Prefix test used by `consume_literal` (`strstr(lexer.pos, literal) ==
lexer.pos`). -/
def lit_matches : List Char → List Char → Bool
  | [], _ => true
  | _ :: _, [] => false
  | l :: ls, c :: cs => if l = c then lit_matches ls cs else false

/-- The lexer entry point `get_token` (src/kzrjson.c lines 247-296).
Returns the token value the C function returns together with the updated
state; on a tokenize error the returned value is `tokError`, the exception
is set and `current_token` is left unchanged, exactly as in the source. -/
def get_token (t : List Char) (st : St) : Token × St :=
  let p := st.pos + ws_count (t.drop st.pos)
  let c := charAt t p
  if c = nul then (.eot, { st with pos := p, tok := .eot })
  else if c = begin_array then (.beginArray, { st with pos := p + 1, tok := .beginArray })
  else if c = begin_object then (.beginObject, { st with pos := p + 1, tok := .beginObject })
  else if c = end_array then (.endArray, { st with pos := p + 1, tok := .endArray })
  else if c = end_object then (.endObject, { st with pos := p + 1, tok := .endObject })
  else if c = name_separator then (.nameSeparator, { st with pos := p + 1, tok := .nameSeparator })
  else if c = value_separator then (.valueSeparator, { st with pos := p + 1, tok := .valueSeparator })
  else if c = decimal_point then (.decimalPoint, { st with pos := p + 1, tok := .decimalPoint })
  else if c ∈ digit0_9 then (.digit, { st with pos := p + 1, tok := .digit })
  else if c = 'e' ∨ c = 'E' then (.tokE, { st with pos := p + 2, tok := .tokE })
  else if c = minus then (.tokMinus, { st with pos := p + 1, tok := .tokMinus })
  else if c = plus then (.tokPlus, { st with pos := p + 1, tok := .tokPlus })
  else if c = escape then (.tokEscape, { st with pos := p + 1, tok := .tokEscape })
  else if c = quotation_mark then
    match set_token_string (t.drop (p + 1)) 0 with
    | (true, length, consumed) =>
      (.str (p + 1) length, { st with pos := p + 1 + consumed, tok := .str (p + 1) length })
    | (false, _, consumed) =>
      (.tokError, { st with pos := p + 1 + consumed, exc := .tokenize })
  else if lit_matches literal_false (t.drop p) then
    (.litFalse, { st with pos := p + literal_false.length, tok := .litFalse })
  else if lit_matches literal_true (t.drop p) then
    (.litTrue, { st with pos := p + literal_true.length, tok := .litTrue })
  else if lit_matches literal_null (t.drop p) then
    (.litNull, { st with pos := p + literal_null.length, tok := .litNull })
  else (.tokError, { st with pos := p, exc := .tokenize })

/-- `copy_string(from, length)` where `from` is `text + b`. -/
def copy_string (t : List Char) (b : Nat) (length : Nat) : List Char :=
  (t.drop b).take length

/-- Whitespace in the C locale, as skipped by the `strto*` conversions. -/
def is_space_c (c : Char) : Bool :=
  c = ' ' ∨ c = Char.ofNat 9 ∨ c = Char.ofNat 10 ∨ c = Char.ofNat 11 ∨
    c = Char.ofNat 12 ∨ c = Char.ofNat 13

/-- Split a maximal leading run of decimal digits off a character list. -/
def take_digits : List Char → List Char × List Char
  | [] => ([], [])
  | c :: rest =>
    if c ∈ digit0_9 then
      match take_digits rest with
      | (ds, r) => (c :: ds, r)
    else ([], c :: rest)

def digit_val (c : Char) : Nat := c.toNat - '0'.toNat

/-- Value of a digit string, most significant digit first. -/
def digits_to_nat (acc : Nat) : List Char → Nat
  | [] => acc
  | c :: rest => digits_to_nat (acc * 10 + digit_val c) rest

/-- Strip the optional sign accepted by the `strto*` conversions; returns
whether a minus sign was read and the remaining characters. -/
def strto_sign : List Char → Bool × List Char
  | '-' :: rest => (true, rest)
  | '+' :: rest => (false, rest)
  | s => (false, s)

def int64_max : Int := 2 ^ 63 - 1

def int64_min : Int := -(2 ^ 63)

def uint64_mod : Nat := 2 ^ 64

/-- `strtoll(s, &end, 10)`: `none` models `end == s` (no characters
consumed); out-of-range values saturate as the C function specifies. -/
def strtoll (s : List Char) : Option Int :=
  let s1 := s.dropWhile (fun c => is_space_c c)
  let sgn := strto_sign s1
  match take_digits sgn.2 with
  | ([], _) => none
  | (ds, _) =>
    let v : Int := (digits_to_nat 0 ds : Int)
    let v := if sgn.1 then -v else v
    some (if v < int64_min then int64_min else if int64_max < v then int64_max else v)

/-- `strtoull(s, &end, 10)`: `none` models `end == s`; overflow saturates to
the maximal value and a minus sign negates in unsigned arithmetic. -/
def strtoull (s : List Char) : Option Nat :=
  let s1 := s.dropWhile (fun c => is_space_c c)
  let sgn := strto_sign s1
  match take_digits sgn.2 with
  | ([], _) => none
  | (ds, _) =>
    let v := digits_to_nat 0 ds
    let v := if uint64_mod ≤ v then uint64_mod - 1 else v
    some (if sgn.1 then (uint64_mod - v) % uint64_mod else v)

/-- `strtod(s, &end)` on decimal input: `none` models `end == s`.  The
fraction requires no digit of its own (C accepts "1."), but at least one
digit must appear in the integer or fraction part; an exponent is consumed
only when at least one digit follows its optional sign.  The value is
returned exactly as a decimal mantissa and power-of-ten exponent (IEEE
rounding to double is not modelled).  Hexadecimal, infinity and NaN forms
cannot reach this function from the embedded code paths and are omitted. -/
def strtod (s : List Char) : Option (Int × Int) :=
  let s1 := s.dropWhile (fun c => is_space_c c)
  let sgn := strto_sign s1
  match take_digits sgn.2 with
  | (ds1, r1) =>
    let frac : List Char × List Char :=
      match r1 with
      | c :: rest => if c = decimal_point then take_digits rest else ([], r1)
      | [] => ([], r1)
    match frac with
    | (ds2, r2) =>
      if ds1 = [] ∧ ds2 = [] then none
      else
        let mant : Int := (digits_to_nat 0 (ds1 ++ ds2) : Int)
        let mant := if sgn.1 then -mant else mant
        let e : Int :=
          match r2 with
          | c :: rest =>
            if c = 'e' ∨ c = 'E' then
              let esgn := strto_sign rest
              match take_digits esgn.2 with
              | ([], _) => 0
              | (eds, _) =>
                if esgn.1 then -(digits_to_nat 0 eds : Int) else (digits_to_nat 0 eds : Int)
            else 0
          | [] => 0
        some (mant, e - (ds2.length : Int))

/-- The conversion step of `make_number` (src/kzrjson.c lines 373-401):
which union member is filled in, or `none` when the conversion consumed no
characters and `kzrjson_exception_not_number` is thrown. -/
def make_number_value (number : List Char) (ty : NumberType) : Option NumVal :=
  match ty with
  | .int =>
    match strtoll number with
    | some v => some (.i v)
    | none => none
  | .uint =>
    match strtoull number with
    | some v => some (.u v)
    | none => none
  | .double =>
    match strtod number with
    | some v => some (.d v.1 v.2)
    | none => none
  | .exp =>
    match strtod number with
    | some v => some (.d v.1 v.2)
    | none => none

/-- `make_number` as called by the parser: allocation always succeeds, and a
failed conversion throws `not_number` and returns NULL. -/
def make_number (number : List Char) (ty : NumberType) (st : St) : Option Json × St :=
  match make_number_value number ty with
  | some v => (some (.num number ty v), st)
  | none => (none, { st with exc := .notNumber })

/-- `add_element` (src/kzrjson.c lines 303-324): appends the element at the
end of the container's child array; NULL container or element is ignored.
The C function stores into the `elements` field of whatever node it is
given; the parser and the type-checked public API only apply it to objects
and arrays, so other variants are returned unchanged. -/
def add_element (container : Json) (element : Option Json) : Json :=
  match element with
  | none => container
  | some e =>
    match container with
    | .obj cs => .obj (cs ++ [e])
    | .arr cs => .arr (cs ++ [e])
    | other => other

mutual

/-- `parse_value` (src/kzrjson.c lines 523-560).  Dispatches on
`current_token`; the `kzrjson_catch_exception()` checks after each
construction and `get_token()` call become tests of the threaded `exc`
field (they also catch an exception that was already pending on entry,
exactly as the global flag does in C). -/
def parse_value (t : List Char) : Nat → St → Option Json × St
  | 0, st => (none, st)
  | fuel + 1, st =>
    if st.tok = .litFalse then
      let data := Json.boolean false
      if st.exc ≠ .success then (none, st)
      else
        let r := get_token t st
        if r.2.exc ≠ .success then (none, r.2) else (some data, r.2)
    else if st.tok = .litTrue then
      let data := Json.boolean true
      if st.exc ≠ .success then (none, st)
      else
        let r := get_token t st
        if r.2.exc ≠ .success then (none, r.2) else (some data, r.2)
    else if st.tok = .litNull then
      let data := Json.null
      if st.exc ≠ .success then (none, st)
      else
        let r := get_token t st
        if r.2.exc ≠ .success then (none, r.2) else (some data, r.2)
    else
      match st.tok with
      | .str b length =>
        let string := copy_string t b length
        if st.exc ≠ .success then (none, st)
        else
          let data := Json.str string
          let r := get_token t st
          if r.2.exc ≠ .success then (none, r.2) else (some data, r.2)
      | .beginObject => parse_object t fuel st
      | .beginArray => parse_array t fuel st
      | _ => parse_number t fuel st

/-- `parse_object` (src/kzrjson.c lines 564-582).  Note that the C code
parses a first member unconditionally before entering the separator loop:
there is no check for an immediately following `end_object` token. -/
def parse_object (t : List Char) : Nat → St → Option Json × St
  | 0, st => (none, st)
  | fuel + 1, st =>
    let object := Json.obj []
    if st.exc ≠ .success then (none, st)
    else if st.tok ≠ .beginObject then (none, { st with exc := .parse })
    else
      let r := get_token t st
      if r.2.exc ≠ .success then (none, r.2)
      else
        let m := parse_member t fuel r.2
        parse_object_loop t fuel (add_element object m.1) m.2

/-- The `while (!current_is(end_object))` loop of `parse_object`, followed
by the trailing `get_token()`; the `current_must(value_separator)` /
`kzrjson_catch_exception()` pair first overwrites the exception with
`parse` on a token mismatch and then returns on any pending exception. -/
def parse_object_loop (t : List Char) : Nat → Json → St → Option Json × St
  | 0, _, st => (none, st)
  | fuel + 1, object, st =>
    if st.tok = .endObject then
      let r := get_token t st
      if r.2.exc ≠ .success then (none, r.2) else (some object, r.2)
    else if st.tok ≠ .valueSeparator then (none, { st with exc := .parse })
    else if st.exc ≠ .success then (none, st)
    else
      let r := get_token t st
      if r.2.exc ≠ .success then (none, r.2)
      else
        let m := parse_member t fuel r.2
        parse_object_loop t fuel (add_element object m.1) m.2

/-- `parse_array` (src/kzrjson.c lines 585-603); like `parse_object` it
parses a first value unconditionally. -/
def parse_array (t : List Char) : Nat → St → Option Json × St
  | 0, st => (none, st)
  | fuel + 1, st =>
    let array := Json.arr []
    if st.exc ≠ .success then (none, st)
    else if st.tok ≠ .beginArray then (none, { st with exc := .parse })
    else
      let r := get_token t st
      if r.2.exc ≠ .success then (none, r.2)
      else
        let v := parse_value t fuel r.2
        parse_array_loop t fuel (add_element array v.1) v.2

/-- The `while (!current_is(end_array))` loop of `parse_array`, followed by
the trailing `get_token()`. -/
def parse_array_loop (t : List Char) : Nat → Json → St → Option Json × St
  | 0, _, st => (none, st)
  | fuel + 1, array, st =>
    if st.tok = .endArray then
      let r := get_token t st
      if r.2.exc ≠ .success then (none, r.2) else (some array, r.2)
    else if st.tok ≠ .valueSeparator then (none, { st with exc := .parse })
    else if st.exc ≠ .success then (none, st)
    else
      let r := get_token t st
      if r.2.exc ≠ .success then (none, r.2)
      else
        let v := parse_value t fuel r.2
        parse_array_loop t fuel (add_element array v.1) v.2

/-- `parse_member` (src/kzrjson.c lines 606-620).  The member is returned
even when parsing its value failed: `add_value` simply leaves the value
NULL in that case and the caller's next exception check reports the
error. -/
def parse_member (t : List Char) : Nat → St → Option Json × St
  | 0, st => (none, st)
  | fuel + 1, st =>
    match st.tok with
    | .str b length =>
      if st.exc ≠ .success then (none, st)
      else
        let buffer := copy_string t b length
        let r := get_token t st
        if r.2.exc ≠ .success then (none, r.2)
        else if r.2.tok ≠ .nameSeparator then (none, { r.2 with exc := .parse })
        else
          let r2 := get_token t r.2
          if r2.2.exc ≠ .success then (none, r2.2)
          else
            let v := parse_value t fuel r2.2
            (some (Json.member buffer v.1), v.2)
    | _ => (none, { st with exc := .parse })

/-- A `for (; token == digit; token = get_token())` loop of `parse_number`:
the body returns NULL when an exception is pending, the update step fetches
the next token.  The boolean result records whether the loop aborted. -/
def number_digits (t : List Char) : Nat → Token → St → Token × St × Bool
  | 0, token, st => (token, st, true)
  | fuel + 1, token, st =>
    if token = .digit then
      if st.exc ≠ .success then (token, st, true)
      else
        let r := get_token t st
        number_digits t fuel r.1 r.2
    else (token, st, false)

/-- `parse_number` (src/kzrjson.c lines 623-665).  `begin` is
`lexer.pos - 1` at entry and the retained source span is
`copy_string(begin, lexer.pos - begin - 1)` at exit; both subtractions are
the C pointer differences, rendered on `Nat` (they never truncate on the
inputs the theorems below evaluate). -/
def parse_number (t : List Char) : Nat → St → Option Json × St
  | 0, st => (none, st)
  | fuel + 1, st =>
    let b := st.pos - 1
    let step1 : Token × St × NumberType × Bool :=
      if st.tok = .tokMinus then
        let r := get_token t st
        if r.2.exc ≠ .success then (r.1, r.2, .int, true) else (r.1, r.2, .int, false)
      else (st.tok, st, .uint, false)
    match step1 with
    | (token, st, ty, aborted) =>
      if aborted then (none, st)
      else
        match number_digits t fuel token st with
        | (token, st, ab1) =>
          if ab1 then (none, st)
          else
            let step2 : Token × St × NumberType × Bool :=
              if token = .decimalPoint then
                let r := get_token t st
                match number_digits t fuel r.1 r.2 with
                | (token2, st2, ab) => (token2, st2, .double, ab)
              else (token, st, ty, false)
            match step2 with
            | (token, st, ty, ab2) =>
              if ab2 then (none, st)
              else
                let step3 : Token × St × NumberType × Bool :=
                  if token = .tokE then
                    let r := get_token t st
                    let sgn : Token × St × Bool :=
                      if r.1 = .tokMinus ∨ r.1 = .tokPlus then
                        let r2 := get_token t r.2
                        if r2.2.exc ≠ .success then (r2.1, r2.2, true)
                        else (r2.1, r2.2, false)
                      else (r.1, r.2, false)
                    match sgn with
                    | (token2, st2, ab0) =>
                      if ab0 then (token2, st2, .exp, true)
                      else
                        match number_digits t fuel token2 st2 with
                        | (token3, st3, ab) => (token3, st3, .exp, ab)
                  else (token, st, ty, false)
                match step3 with
                | (_, st, ty, ab3) =>
                  if ab3 then (none, st)
                  else
                    let length := st.pos - b - 1
                    let number := copy_string t b length
                    make_number number ty st

end

/-- `parse_json_text` (src/kzrjson.c lines 509-513). -/
def parse_json_text (t : List Char) (fuel : Nat) (st : St) : Option Json × St :=
  let r := get_token t st
  if r.2.exc ≠ .success then (none, r.2) else parse_value t fuel r.2

/-- `kzrjson_parse` (src/kzrjson.c lines 878-896): resets the exception,
primes the lexer at position 0 with the zero-initialised `current_token`,
parses one value, and on any pending exception frees the partial tree and
returns NULL with that exception. -/
def kzrjson_parse (t : List Char) : Option Json × ExcName :=
  let st : St := { pos := 0, tok := .tokError, exc := .success }
  let r := parse_json_text t (4 * t.length + 64) st
  if r.2.exc ≠ .success then (none, r.2.exc) else (r.1, .success)

mutual

/-- `kzrjson_inner_to_string` (src/kzrjson.c lines 815-859).  The C code
writes into a buffer pre-sized by `kzrjson_inner_length`; the two passes
collapse to emitting the character list directly.  A member with a NULL
value would be dereferenced by the C code (undefined behaviour); the model
emits nothing for it, and no theorem below relies on that case. -/
def kzrjson_inner_to_string : Json → List Char
  | .obj cs => begin_object :: to_string_elements cs ++ [end_object]
  | .arr cs => begin_array :: to_string_elements cs ++ [end_array]
  | .member key v =>
    quotation_mark :: key ++ quotation_mark :: name_separator ::
      (match v with
       | some j => kzrjson_inner_to_string j
       | none => [])
  | .str s => quotation_mark :: s ++ [quotation_mark]
  | .num s _ _ => s
  | .boolean b => if b then literal_true else literal_false
  | .null => literal_null

/-- The `for` loop over `elements` shared by the object and array cases of
`kzrjson_inner_to_string`: children in order, separated by commas. -/
def to_string_elements : List Json → List Char
  | [] => []
  | [x] => kzrjson_inner_to_string x
  | x :: y :: rest => kzrjson_inner_to_string x ++ value_separator :: to_string_elements (y :: rest)

end

/-- `kzrjson_to_string` (src/kzrjson.c lines 1082-1105): allocation always
succeeds in the model, so this is the serialized text. -/
def kzrjson_to_string (data : Json) : List Char := kzrjson_inner_to_string data

/-- Key of a node, when it is a member (`member->key`; NULL otherwise). -/
def member_key : Json → Option (List Char)
  | .member k _ => some k
  | _ => none

/-- Value of a node, when it is a member (`member->value`). -/
def member_value : Json → Option Json
  | .member _ v => v
  | _ => none

/-- The scanning loop of `kzrjson_get_member`: the first child whose key
compares equal to the requested key under `strcmp`.  (On a non-member
child the C code would pass a NULL key to `strcmp`; such children cannot
occur in an object built by the parser or the type-checked public API, and
a `none` key never compares equal here.) -/
def find_member (key : List Char) : List Json → Option Json
  | [] => none
  | m :: rest => if member_key m = some key then some m else find_member key rest

/-- `kzrjson_get_member` (src/kzrjson.c lines 898-912): resets the
exception, rejects non-objects with `illegal_type`, scans the children in
order and throws `object_key_not_found` if no key matches.  The returned
exception name is the library's exception state after the call. -/
def kzrjson_get_member (object : Json) (key : List Char) : Option Json × ExcName :=
  match object with
  | .obj cs =>
    match find_member key cs with
    | some m => (some m, .success)
    | none => (none, .keyNotFound)
  | _ => (none, .illegalType)

/-- `kzrjson_get_value_from_key` (src/kzrjson.c lines 914-925): type check,
then `kzrjson_get_member`, then the member's value. -/
def kzrjson_get_value_from_key (object : Json) (key : List Char) : Option Json × ExcName :=
  match object with
  | .obj cs =>
    match kzrjson_get_member (.obj cs) key with
    | (some m, _) => (member_value m, .success)
    | (none, e) => (none, e)
  | _ => (none, .illegalType)

/-- `kzrjson_get_element` (src/kzrjson.c lines 927-938): type check, bounds
check (`index < 0` is vacuous for `size_t`), then the element. -/
def kzrjson_get_element (array : Json) (index : Nat) : Option Json × ExcName :=
  match array with
  | .arr cs =>
    if index < cs.length then (cs.get? index, .success)
    else (none, .indexOutOfRange)
  | _ => (none, .illegalType)

/-- `kzrjson_make_object` (src/kzrjson.c lines 940-945). -/
def kzrjson_make_object : Json × ExcName := (.obj [], .success)

/-- `kzrjson_make_array` (src/kzrjson.c lines 947-952). -/
def kzrjson_make_array : Json × ExcName := (.arr [], .success)

/-- `kzrjson_make_member` (src/kzrjson.c lines 980-991): the key argument
stands for the `key_length`-character copy the C function takes; a NULL
value argument leaves the member's value NULL. -/
def kzrjson_make_member (key : List Char) (value : Option Json) : Json × ExcName :=
  (.member key value, .success)

/-- `kzrjson_make_string` (src/kzrjson.c lines 993-1003). -/
def kzrjson_make_string (s : List Char) : Json × ExcName := (.str s, .success)

/-- `kzrjson_make_boolean` (src/kzrjson.c lines 1005-1010). -/
def kzrjson_make_boolean (b : Bool) : Json × ExcName := (.boolean b, .success)

/-- `kzrjson_make_null` (src/kzrjson.c lines 1012-1017). -/
def kzrjson_make_null : Json × ExcName := (.null, .success)

/-- Decimal text of a natural number (`snprintf` with `%llu`). -/
def nat_decimal (n : Nat) : List Char := (Nat.repr n).data

/-- Decimal text of an integer (`snprintf` with `%lld`). -/
def int_decimal (i : Int) : List Char :=
  if i < 0 then '-' :: nat_decimal i.natAbs else nat_decimal i.toNat

/-- `kzrjson_make_number_uint` (src/kzrjson.c lines 1033-1045): formats the
value in decimal into a 20-character buffer (every `uint64_t` fits) and
classifies it `uint`. -/
def kzrjson_make_number_uint (number : Nat) : Option Json × ExcName :=
  let buffer := (nat_decimal number).take 20
  match make_number_value buffer .uint with
  | some v => (some (.num buffer .uint v), .success)
  | none => (none, .notNumber)

/-- `kzrjson_make_number_int` (src/kzrjson.c lines 1047-1059): formats the
value in decimal into a 19-character buffer (so the most negative values
are truncated by `snprintf`, as in the source) and classifies it `int`. -/
def kzrjson_make_number_int (number : Int) : Option Json × ExcName :=
  let buffer := (int_decimal number).take 19
  match make_number_value buffer .int with
  | some v => (some (.num buffer .int v), .success)
  | none => (none, .notNumber)

/-- `kzrjson_make_number_double` (src/kzrjson.c lines 1019-1031).  The
argument stands for the 16-character `snprintf("%lf")` rendering of the
double argument; formatting an IEEE double is not modelled, so the model
takes the formatted buffer itself. -/
def kzrjson_make_number_double (buffer : List Char) : Option Json × ExcName :=
  match make_number_value buffer .double with
  | some v => (some (.num buffer .double v), .success)
  | none => (none, .notNumber)

/-- `kzrjson_make_number_exp` (src/kzrjson.c lines 1061-1080): probes the
full text with `strtod`, throws `not_number` if it consumes nothing, then
stores the first `length` characters and classifies them `exp` (the
truncated text is converted again by `make_number`). -/
def kzrjson_make_number_exp (exp_text : List Char) (length : Nat) : Option Json × ExcName :=
  match strtod exp_text with
  | none => (none, .notNumber)
  | some _ =>
    let buffer := exp_text.take length
    match make_number_value buffer .exp with
    | some v => (some (.num buffer .exp v), .success)
    | none => (none, .notNumber)

/-- `kzrjson_object_add_member` (src/kzrjson.c lines 954-967).  The `Option`
arguments model possibly-NULL pointers: the NULL guard returns `false`
BEFORE `exception_set_success()`, so in that case the incoming exception
state `prev` survives the call.  Result: (return value, the object after
the call, the exception state after the call). -/
def kzrjson_object_add_member (prev : ExcName) (object : Option Json) (member : Option Json) :
    Bool × Option Json × ExcName :=
  match object, member with
  | none, _ => (false, none, prev)
  | some o, none => (false, some o, prev)
  | some o, some m =>
    match o with
    | .obj cs =>
      match m with
      | .member k v => (true, some (add_element (.obj cs) (some (.member k v))), .success)
      | _ => (false, some o, .illegalType)
    | _ => (false, some o, .illegalType)

/-- `kzrjson_array_add_element` (src/kzrjson.c lines 969-978): same NULL
guard before the exception reset; this first-revision variant does not
reject bare Member elements. -/
def kzrjson_array_add_element (prev : ExcName) (array : Option Json) (element : Option Json) :
    Bool × Option Json × ExcName :=
  match array, element with
  | none, _ => (false, none, prev)
  | some a, none => (false, some a, prev)
  | some a, some e =>
    match a with
    | .arr cs => (true, some (add_element (.arr cs) (some e)), .success)
    | _ => (false, some a, .illegalType)

/-- `kzrjson_is_member` of the second revision (src/kzrjson.c lines
1903-1906): NULL inner pointers are not members. -/
def kzrjson_is_member : Option Json → Bool
  | some (.member _ _) => true
  | _ => false

/-- `kzrjson_array_add_element` of the second revision (src/kzrjson.c lines
2108-2119): resets the exception, rejects a non-array target and a bare
Member element with `illegal_type`, then calls that revision's
`add_element`, which appends and then falls through to its
allocation-error label (src/kzrjson.c lines 1375-1390 have no `return`
before the label), so even a successful append leaves the allocation
exception set.  Result: (the array after the call, the exception state
after the call). -/
def v2_kzrjson_array_add_element (array : Option Json) (element : Option Json) :
    Option Json × ExcName :=
  match array with
  | none => (none, .illegalType)
  | some a =>
    match a with
    | .arr cs =>
      if kzrjson_is_member element then (some a, .illegalType)
      else
        match element with
        | none => (some a, .success)
        | some e => (some (.arr (cs ++ [e])), .alloc)
    | _ => (some a, .illegalType)

/-- One call to a public interface function of the first revision, with its
arguments.  `Option Json` arguments model possibly-NULL `kzrjson_t`
pointers where the source checks for NULL; functions that dereference
their argument unconditionally take a `Json`. -/
inductive ApiCall where
  | parseCall (text : List Char)
  | freeCall (a : Option Json)
  | printCall (a : Option Json)
  | getMember (o : Json) (k : List Char)
  | getValueFromKey (o : Json) (k : List Char)
  | getElement (a : Json) (i : Nat)
  | makeObject
  | makeArray
  | objectAddMember (o : Option Json) (m : Option Json)
  | arrayAddElement (a : Option Json) (e : Option Json)
  | makeMember (k : List Char) (v : Option Json)
  | makeString (s : List Char)
  | makeBoolean (b : Bool)
  | makeNull
  | makeNumberDouble (buffer : List Char)
  | makeNumberUint (n : Nat)
  | makeNumberInt (i : Int)
  | makeNumberExp (s : List Char) (len : Nat)
  | toStringCall (j : Json)

/-- The library's stored exception state after one public call, as a
function of the state before the call (src/kzrjson.c lines 861-1105).
`kzrjson_free`, `kzrjson_print` and `kzrjson_to_string` reset the state and
cannot throw in the model (allocation succeeds); every other function's
resulting state is given by its definition above. -/
def api_exc : ApiCall → ExcName → ExcName
  | .parseCall text, _ => (kzrjson_parse text).2
  | .freeCall _, _ => .success
  | .printCall _, _ => .success
  | .getMember o k, _ => (kzrjson_get_member o k).2
  | .getValueFromKey o k, _ => (kzrjson_get_value_from_key o k).2
  | .getElement a i, _ => (kzrjson_get_element a i).2
  | .makeObject, _ => kzrjson_make_object.2
  | .makeArray, _ => kzrjson_make_array.2
  | .objectAddMember o m, prev => (kzrjson_object_add_member prev o m).2.2
  | .arrayAddElement a e, prev => (kzrjson_array_add_element prev a e).2.2
  | .makeMember k v, _ => (kzrjson_make_member k v).2
  | .makeString s, _ => (kzrjson_make_string s).2
  | .makeBoolean b, _ => (kzrjson_make_boolean b).2
  | .makeNull, _ => kzrjson_make_null.2
  | .makeNumberDouble buffer, _ => (kzrjson_make_number_double buffer).2
  | .makeNumberUint n, _ => (kzrjson_make_number_uint n).2
  | .makeNumberInt i, _ => (kzrjson_make_number_int i).2
  | .makeNumberExp s len, _ => (kzrjson_make_number_exp s len).2
  | .toStringCall _, _ => .success

/-- The calls whose NULL guard precedes `exception_set_success()`: the two
add functions when either pointer argument is NULL. -/
def null_guard_skip : ApiCall → Bool
  | .objectAddMember none _ => true
  | .objectAddMember _ none => true
  | .arrayAddElement none _ => true
  | .arrayAddElement _ none => true
  | _ => false

/-- A character that cannot end a string token scan step: not a quotation
mark, not NUL, not a backslash. -/
def plain_char (x : Char) : Prop := x ≠ quotation_mark ∧ x ≠ nul ∧ x ≠ escape

instance (x : Char) : Decidable (plain_char x) := by
  unfold plain_char
  infer_instance

lemma triple_eq {a : Bool} {x y z w : Nat} (h1 : x = z) (h2 : y = w) :
    ((a, x, y) : Bool × Nat × Nat) = (a, z, w) := by rw [h1, h2]

lemma set_token_string_quote_cons (rest : List Char) (len : Nat) :
    set_token_string (quotation_mark :: rest) len = (true, len, 1) := by
  rw [set_token_string.eq_def]
  simp

lemma set_token_string_plain_cons {x : Char} (hx : plain_char x) (rest : List Char) (len : Nat) :
    set_token_string (x :: rest) len =
      ((set_token_string rest (len + 1)).1, (set_token_string rest (len + 1)).2.1,
        (set_token_string rest (len + 1)).2.2 + 1) := by
  obtain ⟨h1, h2, h3⟩ := hx
  rcases hrec : set_token_string rest (len + 1) with ⟨ok, l, n⟩
  rw [set_token_string.eq_def]
  simp only [if_neg h1, if_neg h2, if_neg h3, hrec]

lemma set_token_string_escape_cons (c : Char) (rest : List Char) (len : Nat) :
    set_token_string (escape :: c :: rest) len =
      if c = nul then (false, len, 1)
      else if c ∈ escape_targets then
        ((set_token_string rest (len + 2)).1, (set_token_string rest (len + 2)).2.1,
          (set_token_string rest (len + 2)).2.2 + 2)
      else (false, len, 1) := by
  have he1 : escape ≠ quotation_mark := by decide
  have he2 : escape ≠ nul := by decide
  rcases hrec : set_token_string rest (len + 2) with ⟨ok, l, n⟩
  rw [set_token_string.eq_def]
  simp only [if_neg he1, if_neg he2, eq_self_iff_true, if_true, hrec]

/-- Scanning a string body that reaches a backslash followed by a character
outside the escape-target set fails, with the cursor stopped on that
character. -/
lemma set_token_string_bad_escape :
    ∀ (p : List Char) (c : Char) (rest : List Char) (len : Nat),
      (∀ x ∈ p, plain_char x) → c ∉ escape_targets →
      set_token_string (p ++ escape :: c :: rest) len = (false, len + p.length, p.length + 1)
  | [], c, rest, len, _, hc => by
    rw [List.nil_append, set_token_string_escape_cons]
    by_cases hc0 : c = nul
    · rw [if_pos hc0]
      simp only [List.length_nil]
      exact triple_eq (by omega) (by omega)
    · rw [if_neg hc0, if_neg hc]
      simp only [List.length_nil]
      exact triple_eq (by omega) (by omega)
  | x :: p', c, rest, len, hp, hc => by
    have hx : plain_char x := hp x (List.mem_cons_self x p')
    have hp' : ∀ y ∈ p', plain_char y := fun y hy => hp y (List.mem_cons_of_mem x hy)
    rw [List.cons_append, set_token_string_plain_cons hx,
      set_token_string_bad_escape p' c rest (len + 1) hp' hc]
    simp only [List.length_cons]
    exact triple_eq (by omega) (by omega)

/-- Scanning a string body of plain characters followed by a quotation mark
succeeds, consuming through the quotation mark. -/
lemma set_token_string_close :
    ∀ (p : List Char) (rest : List Char) (len : Nat),
      (∀ x ∈ p, plain_char x) →
      set_token_string (p ++ quotation_mark :: rest) len = (true, len + p.length, p.length + 1)
  | [], rest, len, _ => by
    rw [List.nil_append, set_token_string_quote_cons]
    simp only [List.length_nil]
    exact triple_eq (by omega) (by omega)
  | x :: p', rest, len, hp => by
    have hx : plain_char x := hp x (List.mem_cons_self x p')
    have hp' : ∀ y ∈ p', plain_char y := fun y hy => hp y (List.mem_cons_of_mem x hy)
    rw [List.cons_append, set_token_string_plain_cons hx,
      set_token_string_close p' rest (len + 1) hp']
    simp only [List.length_cons]
    exact triple_eq (by omega) (by omega)

/-- Scanning a string body containing an escaped quotation mark does not
stop there: the token extends to the next unescaped quotation mark. -/
lemma set_token_string_escaped_quote :
    ∀ (p1 p2 : List Char) (rest : List Char) (len : Nat),
      (∀ x ∈ p1, plain_char x) → (∀ x ∈ p2, plain_char x) →
      set_token_string (p1 ++ escape :: quotation_mark :: (p2 ++ quotation_mark :: rest)) len =
        (true, len + p1.length + 2 + p2.length, p1.length + 2 + p2.length + 1)
  | [], p2, rest, len, _, hp2 => by
    have hq1 : quotation_mark ≠ nul := by decide
    have hq2 : quotation_mark ∈ escape_targets := by decide
    rw [List.nil_append, set_token_string_escape_cons, if_neg hq1, if_pos hq2,
      set_token_string_close p2 rest (len + 2) hp2]
    simp only [List.length_nil]
    exact triple_eq (by omega) (by omega)
  | x :: p1', p2, rest, len, hp1, hp2 => by
    have hx : plain_char x := hp1 x (List.mem_cons_self x p1')
    have hp1' : ∀ y ∈ p1', plain_char y := fun y hy => hp1 y (List.mem_cons_of_mem x hy)
    rw [List.cons_append, set_token_string_plain_cons hx,
      set_token_string_escaped_quote p1' p2 rest (len + 1) hp1' hp2]
    simp only [List.length_cons]
    exact triple_eq (by omega) (by omega)

lemma find_member_of_forall_ne (key : List Char) :
    ∀ (cs : List Json), (∀ m ∈ cs, member_key m ≠ some key) → find_member key cs = none
  | [], _ => rfl
  | m :: rest, h => by
    simp only [find_member, if_neg (h m (List.mem_cons_self m rest))]
    exact find_member_of_forall_ne key rest (fun x hx => h x (List.mem_cons_of_mem m hx))

lemma find_member_append_first (key : List Char) (v : Option Json) :
    ∀ (cs1 cs2 : List Json), (∀ m ∈ cs1, member_key m ≠ some key) →
      find_member key (cs1 ++ Json.member key v :: cs2) = some (Json.member key v)
  | [], cs2, _ => by simp [find_member, member_key]
  | m :: rest, cs2, h => by
    rw [List.cons_append]
    simp only [find_member, if_neg (h m (List.mem_cons_self m rest))]
    exact find_member_append_first key v rest cs2 (fun x hx => h x (List.mem_cons_of_mem m hx))

lemma find_member_first_of_exists (key : List Char) :
    ∀ (cs : List Json), (∃ m ∈ cs, member_key m = some key) →
      ∃ m, find_member key cs = some m ∧ m ∈ cs ∧ member_key m = some key
  | [], h => absurd h (by simp)
  | m :: rest, h => by
    by_cases hm : member_key m = some key
    · exact ⟨m, by simp [find_member, hm], List.mem_cons_self m rest, hm⟩
    · obtain ⟨m', hm', hk⟩ := h
      rcases List.mem_cons.mp hm' with h1 | h2
      · exact absurd (h1 ▸ hk) hm
      · obtain ⟨m2, e1, e2, e3⟩ := find_member_first_of_exists key rest ⟨m', h2, hk⟩
        exact ⟨m2, by simp [find_member, hm, e1], List.mem_cons_of_mem m e2, e3⟩

lemma to_string_elements_intercalate :
    ∀ (cs : List Json),
      to_string_elements cs = List.intercalate [value_separator] (cs.map kzrjson_inner_to_string)
  | [] => by simp [to_string_elements, List.intercalate]
  | [x] => by simp [to_string_elements, List.intercalate]
  | x :: y :: rest => by
    simp only [to_string_elements, to_string_elements_intercalate (y :: rest), List.map_cons]
    simp [List.intercalate, List.intersperse_cons_cons]

/-- Claim C1 (code_bug evidence).  The spec requires
`to_string(parse(t)) = t` for any `t` produced by `to_string`, and
`parse(to_string(v))` structurally equal to `v`.  The text `"100"` is
produced by `to_string` on the tree built by `kzrjson_make_number_uint 100`,
yet parsing it back yields the number node `"10"` with value 10 — the final
character is lost because `parse_number` computes the span length as
`lexer.pos - begin - 1` although the terminating end-of-text token consumed
no character — so serializing again gives `"10"`, not `"100"`. -/
theorem kzrjson_c1_roundtrip_failure :
    kzrjson_make_number_uint 100 = (some (Json.num ['1', '0', '0'] .uint (.u 100)), .success)
    ∧ kzrjson_to_string (Json.num ['1', '0', '0'] .uint (.u 100)) = ['1', '0', '0']
    ∧ kzrjson_parse ['1', '0', '0'] = (some (Json.num ['1', '0'] .uint (.u 10)), .success)
    ∧ kzrjson_to_string (Json.num ['1', '0'] .uint (.u 10)) = ['1', '0']
    ∧ (['1', '0'] : List Char) ≠ ['1', '0', '0'] :=
  ⟨rfl, rfl, rfl, rfl, by decide⟩

/-- Claim C2 (code_bug evidence).  The spec (and the grammar comments above
`parse_object` and `parse_array` in the source) make the member and element
lists optional, but `parse_object` unconditionally parses a first member
(so `parse("{}")` throws `parse` inside `parse_member`) and `parse_array`
unconditionally parses a first value (so `parse("[]")` falls into
`parse_number`, whose empty span fails conversion and throws
`not_number`). -/
theorem kzrjson_c2_empty_containers_rejected :
    kzrjson_parse [begin_object, end_object] = (none, .parse)
    ∧ kzrjson_parse [begin_array, end_array] = (none, .notNumber) :=
  ⟨rfl, rfl⟩

/-- Claim C3 (confirmed).  Scanning a string token body: a backslash
followed by any character outside the escape-target set stops the scan with
a tokenize failure, while an escaped quotation mark does not terminate the
token, which extends to the next unescaped quotation mark; consequently
`get_token` on a string containing a backslash-q escape throws
`kzrjson_exception_tokenize`, while one containing an escaped quotation
mark returns a string token spanning it. -/
theorem kzrjson_c3_escape_validation :
    (∀ (p : List Char) (c : Char) (rest : List Char) (len : Nat),
        (∀ x ∈ p, plain_char x) → c ∉ escape_targets →
        set_token_string (p ++ escape :: c :: rest) len = (false, len + p.length, p.length + 1))
    ∧ (∀ (p1 p2 : List Char) (rest : List Char) (len : Nat),
        (∀ x ∈ p1, plain_char x) → (∀ x ∈ p2, plain_char x) →
        set_token_string (p1 ++ escape :: quotation_mark :: (p2 ++ quotation_mark :: rest)) len =
          (true, len + p1.length + 2 + p2.length, p1.length + 2 + p2.length + 1))
    ∧ get_token ['"', 'a', '\\', 'q', '"'] ⟨0, .tokError, .success⟩ =
        (.tokError, ⟨3, .tokError, .tokenize⟩)
    ∧ get_token ['"', 'a', '\\', '"', 'b', '"', ':'] ⟨0, .tokError, .success⟩ =
        (.str 1 4, ⟨6, .str 1 4, .success⟩) :=
  ⟨set_token_string_bad_escape, set_token_string_escaped_quote, rfl, rfl⟩

/-- Witness for C3: the general parts applied to a concrete one-character
prefix with the unsupported escape target `q`, and to a concrete body with
an escaped quotation mark in the middle. -/
theorem kzrjson_c3_escape_validation_witness :
    set_token_string (['a'] ++ escape :: 'q' :: ['"']) 0 = (false, 1, 2)
    ∧ set_token_string (['a'] ++ escape :: quotation_mark :: (['b'] ++ quotation_mark :: [])) 0 =
        (true, 4, 5) :=
  ⟨kzrjson_c3_escape_validation.1 ['a'] 'q' ['"'] 0 (by decide) (by decide),
   kzrjson_c3_escape_validation.2.1 ['a'] ['b'] [] 0 (by decide) (by decide)⟩

/-- Claim C4 (code_bug evidence).  The spec's number grammar (also quoted in
the comments inside `parse_number`: `int = zero / ( digit1-9 *DIGIT )`,
`frac = decimal-point 1*DIGIT`) forbids a leading zero followed by more
digits and an empty integer part, but the code never distinguishes `0` from
other digits nor requires any digit at all: `"[01]"` and `"[.5]"` are both
accepted and produce Number nodes. -/
theorem kzrjson_c4_number_grammar_not_enforced :
    kzrjson_parse ['[', '0', '1', ']'] =
      (some (.arr [.num ['0', '1'] .uint (.u 1)]), .success)
    ∧ kzrjson_parse ['[', '.', '5', ']'] =
      (some (.arr [.num ['.', '5'] .double (.d 5 (-1))]), .success) :=
  ⟨rfl, rfl⟩

/-- Claim C5 (code_bug evidence).  The spec's classification examples all
fail at top level: `"0"` and `"-5"` lose their last character to the
end-of-text length slip of `parse_number` and the empty / bare-minus
remnants fail conversion (`not_number` instead of zero and -5); `"3.14"`
is stored and valued as `3.1`; `"6e-1"` is stored as `"6e-"` with value 6
(the lexer also double-advances past `e`, skipping the sign), classified
`exp` rather than `double`; `"-1.3e+5"` is stored as `"-1.3e+"` with value
-1.3. -/
theorem kzrjson_c5_number_classification_failure :
    kzrjson_parse ['0'] = (none, .notNumber)
    ∧ kzrjson_parse ['-', '5'] = (none, .notNumber)
    ∧ kzrjson_parse ['3', '.', '1', '4'] =
        (some (.num ['3', '.', '1'] .double (.d 31 (-1))), .success)
    ∧ kzrjson_parse ['6', 'e', '-', '1'] =
        (some (.num ['6', 'e', '-'] .exp (.d 6 0)), .success)
    ∧ kzrjson_parse ['-', '1', '.', '3', 'e', '+', '5'] =
        (some (.num ['-', '1', '.', '3', 'e', '+'] .exp (.d (-13) (-1))), .success) :=
  ⟨rfl, rfl, rfl, rfl, rfl⟩

/-- Claim C6 (confirmed).  `kzrjson_get_member` returns a member of the
object whose key equals the requested key when one is present and throws
`object_key_not_found` otherwise; `kzrjson_get_element` returns the i-th
element for an in-range index and throws `array_index_out_of_range` for an
out-of-range one. -/
theorem kzrjson_c6_lookup_errors :
    (∀ (cs : List Json) (key : List Char),
        (∃ m ∈ cs, member_key m = some key) →
        ∃ m, kzrjson_get_member (Json.obj cs) key = (some m, .success)
          ∧ m ∈ cs ∧ member_key m = some key)
    ∧ (∀ (cs : List Json) (key : List Char),
        (∀ m ∈ cs, member_key m ≠ some key) →
        kzrjson_get_member (Json.obj cs) key = (none, .keyNotFound))
    ∧ (∀ (cs : List Json) (i : Nat) (h : i < cs.length),
        kzrjson_get_element (Json.arr cs) i = (some (cs.get ⟨i, h⟩), .success))
    ∧ (∀ (cs : List Json) (i : Nat), cs.length ≤ i →
        kzrjson_get_element (Json.arr cs) i = (none, .indexOutOfRange)) := by
  refine ⟨?_, ?_, ?_, ?_⟩
  · intro cs key h
    obtain ⟨m, e1, e2, e3⟩ := find_member_first_of_exists key cs h
    exact ⟨m, by simp only [kzrjson_get_member, e1], e2, e3⟩
  · intro cs key h
    simp only [kzrjson_get_member, find_member_of_forall_ne key cs h]
  · intro cs i h
    simp only [kzrjson_get_element, if_pos h, List.get?_eq_get h]
  · intro cs i h
    simp only [kzrjson_get_element, if_neg (by omega : ¬ i < cs.length)]

/-- Witness for C6, at a one-member object and a one-element array. -/
theorem kzrjson_c6_lookup_errors_witness :
    (∃ m, kzrjson_get_member (Json.obj [Json.member ['a'] none]) ['a'] = (some m, .success)
      ∧ m ∈ [Json.member ['a'] none] ∧ member_key m = some ['a'])
    ∧ kzrjson_get_member (Json.obj [Json.member ['a'] none]) ['b'] = (none, .keyNotFound)
    ∧ kzrjson_get_element (Json.arr [Json.null]) 0 = (some Json.null, .success)
    ∧ kzrjson_get_element (Json.arr [Json.null]) 1 = (none, .indexOutOfRange) :=
  ⟨kzrjson_c6_lookup_errors.1 [Json.member ['a'] none] ['a']
      ⟨Json.member ['a'] none, List.mem_cons_self _ _, rfl⟩,
   kzrjson_c6_lookup_errors.2.1 [Json.member ['a'] none] ['b']
      (by intro m hm; rcases List.mem_singleton.mp hm with rfl; decide),
   kzrjson_c6_lookup_errors.2.2.1 [Json.null] 0 (by decide),
   kzrjson_c6_lookup_errors.2.2.2 [Json.null] 1 (by decide)⟩

/-- Claim C7 (confirmed).  `add_element` appends at the end of the child
list of an object or array; a chain of three public `add_member` calls
yields exactly the children `m1, m2, m3` in call order; the serializer
emits the child list in list order (comma-joined, in `map` order); and
parsing a three-member object text yields the members in their textual
order. -/
theorem kzrjson_c7_order_preservation :
    (∀ (cs : List Json) (m : Json),
        add_element (Json.obj cs) (some m) = Json.obj (cs ++ [m])
        ∧ add_element (Json.arr cs) (some m) = Json.arr (cs ++ [m]))
    ∧ (∀ (k1 k2 k3 : List Char) (v1 v2 v3 : Option Json),
        (kzrjson_object_add_member .success
            ((kzrjson_object_add_member .success
                ((kzrjson_object_add_member .success (some (Json.obj []))
                    (some (Json.member k1 v1))).2.1)
                (some (Json.member k2 v2))).2.1)
            (some (Json.member k3 v3))).2.1 =
          some (Json.obj [Json.member k1 v1, Json.member k2 v2, Json.member k3 v3]))
    ∧ (∀ (cs : List Json),
        to_string_elements cs = List.intercalate [value_separator] (cs.map kzrjson_inner_to_string))
    ∧ kzrjson_parse
          [begin_object, '"', 'a', '"', ':', '1', ',', '"', 'b', '"', ':', '2', ',',
            '"', 'c', '"', ':', '3', end_object] =
        (some (Json.obj
          [Json.member ['a'] (some (Json.num ['1'] .uint (.u 1))),
            Json.member ['b'] (some (Json.num ['2'] .uint (.u 2))),
            Json.member ['c'] (some (Json.num ['3'] .uint (.u 3)))]), .success) :=
  ⟨fun _ _ => ⟨rfl, rfl⟩, fun _ _ _ _ _ _ => rfl, to_string_elements_intercalate, rfl⟩

/-- Claim C8 (confirmed).  `kzrjson_object_add_member` throws
`illegal_type` and leaves the target unchanged when its first argument is
not an Object or its second is not a Member; `kzrjson_array_add_element`
throws `illegal_type` when its first argument is not an Array; and the
second revision's `kzrjson_array_add_element` additionally throws
`illegal_type` when the element is a bare Member, leaving the array
unchanged. -/
theorem kzrjson_c8_add_type_enforcement :
    (∀ (prev : ExcName) (o m : Json), (∀ cs, o ≠ Json.obj cs) →
        kzrjson_object_add_member prev (some o) (some m) = (false, some o, .illegalType))
    ∧ (∀ (prev : ExcName) (cs : List Json) (m : Json), (∀ k v, m ≠ Json.member k v) →
        kzrjson_object_add_member prev (some (Json.obj cs)) (some m) =
          (false, some (Json.obj cs), .illegalType))
    ∧ (∀ (prev : ExcName) (a e : Json), (∀ cs, a ≠ Json.arr cs) →
        kzrjson_array_add_element prev (some a) (some e) = (false, some a, .illegalType))
    ∧ (∀ (cs : List Json) (k : List Char) (v : Option Json),
        v2_kzrjson_array_add_element (some (Json.arr cs)) (some (Json.member k v)) =
          (some (Json.arr cs), .illegalType)) := by
  refine ⟨?_, ?_, ?_, ?_⟩
  · intro prev o m h
    cases o with
    | obj cs => exact absurd rfl (h cs)
    | arr cs => cases m <;> rfl
    | str s => cases m <;> rfl
    | num s ty v => cases m <;> rfl
    | boolean b => cases m <;> rfl
    | null => cases m <;> rfl
    | member k v => cases m <;> rfl
  · intro prev cs m h
    cases m with
    | member k v => exact absurd rfl (h k v)
    | obj cs2 => rfl
    | arr cs2 => rfl
    | str s => rfl
    | num s ty v => rfl
    | boolean b => rfl
    | null => rfl
  · intro prev a e h
    cases a with
    | arr cs => exact absurd rfl (h cs)
    | obj cs => rfl
    | str s => rfl
    | num s ty v => rfl
    | boolean b => rfl
    | null => rfl
    | member k v => rfl
  · intro cs k v
    rfl

/-- Witness for C8: a null target for `add_member`, a string element for
`add_member`, a string target for `add_element`, and a bare member element
for the second revision's `add_element`. -/
theorem kzrjson_c8_add_type_enforcement_witness :
    kzrjson_object_add_member .success (some Json.null) (some (Json.member ['k'] none)) =
      (false, some Json.null, .illegalType)
    ∧ kzrjson_object_add_member .success (some (Json.obj [])) (some (Json.str ['s'])) =
      (false, some (Json.obj []), .illegalType)
    ∧ kzrjson_array_add_element .success (some (Json.str ['s'])) (some Json.null) =
      (false, some (Json.str ['s']), .illegalType)
    ∧ v2_kzrjson_array_add_element (some (Json.arr [])) (some (Json.member ['k'] none)) =
      (some (Json.arr []), .illegalType) :=
  ⟨kzrjson_c8_add_type_enforcement.1 .success Json.null (Json.member ['k'] none)
      (fun _ h => Json.noConfusion h),
   kzrjson_c8_add_type_enforcement.2.1 .success [] (Json.str ['s'])
      (fun _ _ h => Json.noConfusion h),
   kzrjson_c8_add_type_enforcement.2.2.1 .success (Json.str ['s']) Json.null
      (fun _ h => Json.noConfusion h),
   kzrjson_c8_add_type_enforcement.2.2.2 [] ['k'] none⟩

/-- Claim C9 (counterexample).  The claim says every public call resets the
stored exception state on entry, so the state after any call describes only
that call.  But the NULL guard of `kzrjson_object_add_member` returns
before `exception_set_success()`: after a failed `get_member` (state
`object_key_not_found`), calling `kzrjson_object_add_member(NULL, NULL)`
leaves the state still `object_key_not_found`, a leftover from the earlier
call. -/
theorem kzrjson_c9_counterexample :
    api_exc (.objectAddMember none none)
        (api_exc (.getMember (Json.obj []) ['x']) .success) = .keyNotFound
    ∧ ExcName.keyNotFound ≠ ExcName.success := by
  constructor
  · rfl
  · decide

/-- Claim C9 as amended (proved).  Every public call except the two add
functions with a NULL pointer argument produces an exception state that is
independent of the state before the call (each such function calls
`exception_set_success()` before doing any work); the two add functions
with a NULL argument return early and leave the previous state in place. -/
theorem kzrjson_c9_amended :
    ∀ (call : ApiCall) (prev : ExcName),
      (null_guard_skip call = false → api_exc call prev = api_exc call .success)
      ∧ (null_guard_skip call = true → api_exc call prev = prev) := by
  intro call prev
  cases call with
  | objectAddMember o m =>
    cases o with
    | none => exact ⟨fun h => by simp [null_guard_skip] at h, fun _ => rfl⟩
    | some o =>
      cases m with
      | none => exact ⟨fun h => by simp [null_guard_skip] at h, fun _ => rfl⟩
      | some m =>
        refine ⟨fun _ => ?_, fun h => by simp [null_guard_skip] at h⟩
        cases o <;> cases m <;> rfl
  | arrayAddElement a e =>
    cases a with
    | none => exact ⟨fun h => by simp [null_guard_skip] at h, fun _ => rfl⟩
    | some a =>
      cases e with
      | none => exact ⟨fun h => by simp [null_guard_skip] at h, fun _ => rfl⟩
      | some e =>
        refine ⟨fun _ => ?_, fun h => by simp [null_guard_skip] at h⟩
        cases a <;> rfl
  | parseCall text => exact ⟨fun _ => rfl, fun h => by simp [null_guard_skip] at h⟩
  | freeCall a => exact ⟨fun _ => rfl, fun h => by simp [null_guard_skip] at h⟩
  | printCall a => exact ⟨fun _ => rfl, fun h => by simp [null_guard_skip] at h⟩
  | getMember o k => exact ⟨fun _ => rfl, fun h => by simp [null_guard_skip] at h⟩
  | getValueFromKey o k => exact ⟨fun _ => rfl, fun h => by simp [null_guard_skip] at h⟩
  | getElement a i => exact ⟨fun _ => rfl, fun h => by simp [null_guard_skip] at h⟩
  | makeObject => exact ⟨fun _ => rfl, fun h => by simp [null_guard_skip] at h⟩
  | makeArray => exact ⟨fun _ => rfl, fun h => by simp [null_guard_skip] at h⟩
  | makeMember k v => exact ⟨fun _ => rfl, fun h => by simp [null_guard_skip] at h⟩
  | makeString s => exact ⟨fun _ => rfl, fun h => by simp [null_guard_skip] at h⟩
  | makeBoolean b => exact ⟨fun _ => rfl, fun h => by simp [null_guard_skip] at h⟩
  | makeNull => exact ⟨fun _ => rfl, fun h => by simp [null_guard_skip] at h⟩
  | makeNumberDouble buffer => exact ⟨fun _ => rfl, fun h => by simp [null_guard_skip] at h⟩
  | makeNumberUint n => exact ⟨fun _ => rfl, fun h => by simp [null_guard_skip] at h⟩
  | makeNumberInt i => exact ⟨fun _ => rfl, fun h => by simp [null_guard_skip] at h⟩
  | makeNumberExp s len => exact ⟨fun _ => rfl, fun h => by simp [null_guard_skip] at h⟩
  | toStringCall j => exact ⟨fun _ => rfl, fun h => by simp [null_guard_skip] at h⟩

/-- Witness for the amended C9: a reset call (`kzrjson_make_null`) and a
guarded call (`kzrjson_object_add_member` on NULL arguments), both entered
with a pending tokenize exception. -/
theorem kzrjson_c9_amended_witness :
    api_exc .makeNull .tokenize = api_exc .makeNull .success
    ∧ api_exc (.objectAddMember none none) .tokenize = .tokenize :=
  ⟨(kzrjson_c9_amended .makeNull .tokenize).1 rfl,
   (kzrjson_c9_amended (.objectAddMember none none) .tokenize).2 rfl⟩

/-- Claim C10 (confirmed).  With duplicate keys, `kzrjson_get_member`
returns the earliest-inserted matching member (the scan runs in insertion
order and stops at the first match), and `kzrjson_get_value_from_key`
returns that member's value. -/
theorem kzrjson_c10_first_match :
    ∀ (cs1 cs2 : List Json) (key : List Char) (v : Option Json),
      (∀ m ∈ cs1, member_key m ≠ some key) →
      kzrjson_get_member (Json.obj (cs1 ++ Json.member key v :: cs2)) key =
        (some (Json.member key v), .success)
      ∧ kzrjson_get_value_from_key (Json.obj (cs1 ++ Json.member key v :: cs2)) key =
        (v, .success) := by
  intro cs1 cs2 key v h
  have h1 : kzrjson_get_member (Json.obj (cs1 ++ Json.member key v :: cs2)) key =
      (some (Json.member key v), .success) := by
    simp only [kzrjson_get_member, find_member_append_first key v cs1 cs2 h]
  refine ⟨h1, ?_⟩
  simp only [kzrjson_get_value_from_key, h1, member_value]

/-- Witness for C10: an object with two members that share the key `a`;
the lookup returns the first one and its value. -/
theorem kzrjson_c10_first_match_witness :
    kzrjson_get_member
        (Json.obj [Json.member ['a'] (some (Json.boolean true)),
          Json.member ['a'] (some (Json.boolean false))]) ['a'] =
      (some (Json.member ['a'] (some (Json.boolean true))), .success)
    ∧ kzrjson_get_value_from_key
        (Json.obj [Json.member ['a'] (some (Json.boolean true)),
          Json.member ['a'] (some (Json.boolean false))]) ['a'] =
      (some (Json.boolean true), .success) :=
  kzrjson_c10_first_match [] [Json.member ['a'] (some (Json.boolean false))] ['a']
    (some (Json.boolean true)) (by intro m hm; cases hm)

end Kzrjson
